import Mathlib

/-!
Shallow embedding of the record-collection bot's storage and
synchronization engine (src/sqlite_manager.py, src/database.py,
src/excel_manager.py, src/main.py).

Conventions of the embedding:
* the SQLite `users` table is a list of `UserRow` values kept in insertion
  order (ids are assigned by an AUTOINCREMENT counter `seq`, so insertion
  order coincides with `ORDER BY id` for states produced by the program);
* fallible I/O is made explicit: each operation that the source wraps in
  `try/except sqlite3.Error` takes a boolean describing whether the
  underlying write/read succeeds, and the exception branch of the source
  becomes the `false` branch of the model;
* timestamps are integers, `CURRENT_TIMESTAMP` becomes an explicit `now`
  argument;
* `REAL` amounts are modelled as rationals.
-/

namespace BotModel

/-- A row of the SQLite `users` table (src/sqlite_manager.py, lines 55-66):
id, full_name, summ, card_number, birthday, synced_with_pg, created_at,
synced_at. -/
structure UserRow where
  id : ℤ
  full_name : String
  summ : ℚ
  card_number : ℤ
  birthday : String
  synced_with_pg : Bool
  created_at : ℤ
  synced_at : Option ℤ
deriving DecidableEq, Repr

/-- State of the SQLite primary store: the rows plus the AUTOINCREMENT
counter (last row id handed out). -/
structure SQLiteDB where
  rows : List UserRow
  seq : ℤ
deriving DecidableEq, Repr

/-- The primary store with no records, before any insert. -/
def emptySQLite : SQLiteDB := ⟨[], 0⟩

/-- The payload accepted by `SQLiteManager.add_user` (src/sqlite_manager.py,
lines 80-95): full_name, summ, card_number, birthday. -/
structure AddData where
  full_name : String
  summ : ℚ
  card_number : ℤ
  birthday : String
deriving DecidableEq, Repr

/-- `SQLiteManager.add_user` (src/sqlite_manager.py, lines 96-125): inserts
a row with `synced_with_pg = FALSE`, `created_at = now`, `synced_at = NULL`
and returns `lastrowid`; on `sqlite3.Error` (`ok = false`) returns `None`
and the store is unchanged. -/
def sqlite_add_user (db : SQLiteDB) (d : AddData) (now : ℤ) (ok : Bool) :
    Option ℤ × SQLiteDB :=
  match ok with
  | true =>
    (some (db.seq + 1),
     ⟨db.rows ++
        [⟨db.seq + 1, d.full_name, d.summ, d.card_number, d.birthday, false, now, none⟩],
      db.seq + 1⟩)
  | false => (none, db)

/-- `SQLiteManager.get_all_users` (src/sqlite_manager.py, lines 127-148):
`SELECT * FROM users ORDER BY id`; on `sqlite3.Error` (`err = true`)
returns the empty list. -/
def get_all_users (err : Bool) (db : SQLiteDB) : List UserRow :=
  match err with
  | true => []
  | false => db.rows

/-- `SQLiteManager.get_unsynced_users` (src/sqlite_manager.py, lines
150-171): `SELECT * FROM users WHERE synced_with_pg = FALSE ORDER BY id`;
on `sqlite3.Error` returns the empty list. -/
def get_unsynced_users (err : Bool) (db : SQLiteDB) : List UserRow :=
  match err with
  | true => []
  | false => db.rows.filter (fun r => !r.synced_with_pg)

/-- The per-row effect of the `UPDATE users SET synced_with_pg = TRUE,
synced_at = CURRENT_TIMESTAMP WHERE id IN (...)` statement of
`mark_users_synced`. -/
def markRow (ids : List ℤ) (now : ℤ) (r : UserRow) : UserRow :=
  if r.id ∈ ids then { r with synced_with_pg := true, synced_at := some now } else r

/-- `SQLiteManager.mark_users_synced` (src/sqlite_manager.py, lines
173-206): returns `True` immediately on an empty id list; otherwise runs
one `UPDATE ... WHERE id IN (...)` inside a committed transaction — the
single statement either applies to every matching row (`ok = true`) or, on
`sqlite3.Error`, is rolled back leaving the store unchanged and returning
`False`. -/
def mark_users_synced (ids : List ℤ) (now : ℤ) (ok : Bool) (db : SQLiteDB) :
    Bool × SQLiteDB :=
  match ids, ok with
  | [], _ => (true, db)
  | _ :: _, true => (true, ⟨db.rows.map (markRow ids now), db.seq⟩)
  | _ :: _, false => (false, db)

/-- Result of `SQLiteManager.get_sync_stats`. -/
structure SyncStats where
  total_users : ℕ
  synced_users : ℕ
  unsynced_users : ℕ
  sync_percentage : ℚ
deriving DecidableEq, Repr

/-- Round-half-to-even on rationals: the idealization of Python's built-in
`round` applied to the synchronization ratio. -/
def roundHalfEven (q : ℚ) : ℤ :=
  let f := ⌊q⌋
  let r := q - f
  if r < 1 / 2 then f
  else if 1 / 2 < r then f + 1
  else if f % 2 = 0 then f else f + 1

/-- `round(x, 2)`: round to two decimal places, half to even. -/
def round2 (q : ℚ) : ℚ := (roundHalfEven (q * 100) : ℚ) / 100

/-- `SQLiteManager.get_sync_stats` (src/sqlite_manager.py, lines 230-267):
counts all rows, the synced rows and the unsynced rows, and computes
`round(synced / total * 100, 2)` guarded by `if total_users > 0 else 0`;
on `sqlite3.Error` returns all-zero statistics. -/
def get_sync_stats (err : Bool) (db : SQLiteDB) : SyncStats :=
  match err with
  | true => ⟨0, 0, 0, 0⟩
  | false =>
    let total := db.rows.length
    let synced := (db.rows.filter (fun r => r.synced_with_pg)).length
    let unsynced := (db.rows.filter (fun r => !r.synced_with_pg)).length
    ⟨total, synced, unsynced,
     if 0 < total then round2 ((synced : ℚ) / (total : ℚ) * 100) else 0⟩

/-- The mutating operations the repository ever performs on the SQLite
primary store: insertion of a fresh form record and the coordinator's
batch flag update. No other code path writes to the `users` table. -/
inductive StoreOp where
  | addUser (d : AddData) (now : ℤ) (ok : Bool)
  | markSynced (ids : List ℤ) (now : ℤ) (ok : Bool)
deriving DecidableEq, Repr

/-- State transition of the primary store under one operation. -/
def applyOp : StoreOp → SQLiteDB → SQLiteDB
  | StoreOp.addUser d now ok, db => (sqlite_add_user db d now ok).2
  | StoreOp.markSynced ids now ok, db => (mark_users_synced ids now ok db).2

/-- Card-number allocation as performed by `handle_birthday`
(src/main.py, lines 171-174): collect the truthy (non-zero) card numbers
of all stored users, and answer `max + 1` if any exist, else `1`. -/
def allocCardNumber (users : List UserRow) : ℤ :=
  match (users.map (fun u => u.card_number)).filter (fun c => decide (c ≠ 0)) with
  | [] => 1
  | c :: cs => cs.foldl max c + 1

/-- The successful save path of `handle_birthday` (src/main.py, lines
171-185): allocate the next card number from the current store contents and
insert the new record. -/
def formCreate (db : SQLiteDB) (fullname birthday : String) (now : ℤ) : SQLiteDB :=
  (sqlite_add_user db ⟨fullname, 0, allocCardNumber (get_all_users false db), birthday⟩
    now true).2

/-- A sequence of completed form sessions: each pair is the (name, birth
date) of one created record. -/
def runForms (db : SQLiteDB) (inputs : List (String × String)) (now : ℤ) : SQLiteDB :=
  inputs.foldl (fun d p => formCreate d p.1 p.2 now) db

/-- A calendar date as (year, month, day). -/
abbrev Date := ℕ × ℕ × ℕ

/-- The numeric value of a decimal digit character, `none` otherwise. -/
def digitVal (c : Char) : Option ℕ :=
  if c.isDigit then some (c.toNat - 48) else none

/-- The regular expression match of `handle_birthday` (src/main.py, lines
142-149): the input must be exactly two digits, a dot, two digits, a dot
and four digits; on success the three groups are read as
(day, month, year). -/
def parseDDMMYYYY (s : String) : Option (ℕ × ℕ × ℕ) :=
  match s.data with
  | [d1, d2, p1, m1, m2, p2, y1, y2, y3, y4] =>
    match digitVal d1, digitVal d2, digitVal m1, digitVal m2,
        digitVal y1, digitVal y2, digitVal y3, digitVal y4 with
    | some a, some b, some c, some d, some e, some f, some g, some h =>
      if p1 = '.' ∧ p2 = '.' then
        some (10 * a + b, 10 * c + d, 1000 * e + 100 * f + 10 * g + h)
      else none
    | _, _, _, _, _, _, _, _ => none
  | _ => none

/-- Gregorian leap-year rule, as implemented by `datetime`. -/
def isLeapYear (y : ℕ) : Bool :=
  decide (y % 4 = 0 ∧ (y % 100 ≠ 0 ∨ y % 400 = 0))

/-- Number of days of month `m` in year `y`. -/
def daysInMonth (y m : ℕ) : ℕ :=
  if m = 2 then (if isLeapYear y then 29 else 28)
  else if m = 4 ∨ m = 6 ∨ m = 9 ∨ m = 11 then 30
  else 31

/-- Whether `datetime(year, month, day)` succeeds: `datetime` requires
`1 <= year <= 9999`, a valid month and a day within the month. -/
def validYMD (y m d : ℕ) : Bool :=
  decide (1 ≤ y ∧ y ≤ 9999 ∧ 1 ≤ m ∧ m ≤ 12 ∧ 1 ≤ d ∧ d ≤ daysInMonth y m)

/-- Strict calendar order on dates, compared on the day level. The source
compares `datetime(year, month, day) > datetime.now()`; since the parsed
birthday carries time 00:00:00 and `now()` lies inside the current day,
that comparison holds exactly when the birthday's date is strictly after
today's date. -/
def dateAfter (a b : Date) : Bool :=
  decide (b.1 < a.1 ∨ (a.1 = b.1 ∧ (b.2.1 < a.2.1 ∨ (a.2.1 = b.2.1 ∧ b.2.2 < a.2.2))))

/-- The calendar day after `t`. -/
def nextDay (t : Date) : Date :=
  if t.2.2 < daysInMonth t.1 t.2.1 then (t.1, t.2.1, t.2.2 + 1)
  else if t.2.1 < 12 then (t.1, t.2.1 + 1, 1)
  else (t.1 + 1, 1, 1)

/-- Outcome of the three-stage birth-date validation of `handle_birthday`:
format check, `datetime` construction, future check. -/
inductive DateCheck where
  | wrongFormat
  | impossibleDate
  | futureDate
  | valid (y m d : ℕ)
deriving DecidableEq, Repr

/-- The birth-date validation of `handle_birthday` (src/main.py, lines
141-161), in source order: reject on pattern mismatch, then on an
impossible calendar date, then on a date in the future; otherwise accept. -/
def checkBirthday (s : String) (today : Date) : DateCheck :=
  match parseDDMMYYYY s with
  | none => DateCheck.wrongFormat
  | some (d, m, y) =>
    if validYMD y m d then
      if dateAfter (y, m, d) today then DateCheck.futureDate
      else DateCheck.valid y m d
    else DateCheck.impossibleDate

/-- The user-visible replies of `handle_birthday`, one per source branch. -/
inductive Reply where
  | wrongFormat
  | impossibleDate
  | futureDate
  | missingData
  | saveError
  | saved (card : ℤ)
deriving DecidableEq, Repr

/-- The two non-terminal conversation states of the form session. -/
inductive SessionState where
  | enterFullname
  | enterBirthday
deriving DecidableEq, Repr

/-- Result of one `handle_birthday` invocation: the reply sent, the session
state afterwards (`none` when the handler deleted the state) and the
primary store afterwards. -/
structure FormResult where
  reply : Reply
  stateAfter : Option SessionState
  db : SQLiteDB
deriving DecidableEq, Repr

/-- Two-digit zero-padded decimal rendering. -/
def pad2 (n : ℕ) : String :=
  if n < 10 then "0" ++ toString n else toString n

/-- Four-digit zero-padded decimal rendering. -/
def pad4 (n : ℕ) : String :=
  if n < 10 then "000" ++ toString n
  else if n < 100 then "00" ++ toString n
  else if n < 1000 then "0" ++ toString n
  else toString n

/-- `strftime` of a date with format YYYY-MM-DD (src/main.py, line 177). -/
def fmtYMD (y m d : ℕ) : String :=
  pad4 y ++ "-" ++ pad2 m ++ "-" ++ pad2 d

/-- `handle_birthday` (src/main.py, lines 131-200): validate the input
against `today`; each of the three rejections replies and returns without
touching the session state (the user stays in the birthday state); on a
valid date, a missing stored name aborts and deletes the state; otherwise
the handler allocates a card number, inserts the record (the insert may
fail), replies accordingly and deletes the state. -/
def handle_birthday (input : String) (today : Date) (fullname : Option String)
    (db : SQLiteDB) (now : ℤ) (readErr : Bool) (insertOk : Bool) : FormResult :=
  match checkBirthday input today with
  | DateCheck.wrongFormat => ⟨Reply.wrongFormat, some SessionState.enterBirthday, db⟩
  | DateCheck.impossibleDate => ⟨Reply.impossibleDate, some SessionState.enterBirthday, db⟩
  | DateCheck.futureDate => ⟨Reply.futureDate, some SessionState.enterBirthday, db⟩
  | DateCheck.valid y m d =>
    match fullname with
    | none => ⟨Reply.missingData, none, db⟩
    | some fn =>
      let card := allocCardNumber (get_all_users readErr db)
      match sqlite_add_user db ⟨fn, 0, card, fmtYMD y m d⟩ now insertOk with
      | (none, db2) => ⟨Reply.saveError, none, db2⟩
      | (some _, db2) => ⟨Reply.saved card, none, db2⟩

/-- A row of the PostgreSQL `users` table (src/database.py): its own serial
id plus the four inserted fields. -/
structure PgRow where
  id : ℤ
  full_name : String
  summ : ℚ
  card_number : ℤ
  birthday : String
deriving DecidableEq, Repr

/-- State of the PostgreSQL mirror store: rows plus the serial counter. -/
structure PgDB where
  rows : List PgRow
  seq : ℤ
deriving DecidableEq, Repr

/-- `Database.add_user` (src/database.py, lines 69-105): inserts
(full_name, summ, card_number, birthday), lets the database generate the
id and returns it via `RETURNING id`; on `psycopg2.Error` (`ok = false`)
returns `None` with the mirror unchanged. -/
def pg_add_user (pg : PgDB) (full_name : String) (summ : ℚ) (card_number : ℤ)
    (birthday : String) (ok : Bool) : Option ℤ × PgDB :=
  match ok with
  | true =>
    (some (pg.seq + 1),
     ⟨pg.rows ++ [⟨pg.seq + 1, full_name, summ, card_number, birthday⟩], pg.seq + 1⟩)
  | false => (none, pg)

/-- The per-record payload `sync_pg_command` builds for the mirror insert
(src/main.py, lines 347-352): full_name, summ, card_number, birthday. -/
structure PgPayload where
  full_name : String
  summ : ℚ
  card_number : ℤ
  birthday : String
deriving DecidableEq, Repr

/-- The projection of a primary-store row onto the mirror-insert payload. -/
def pgUserData (u : UserRow) : PgPayload :=
  ⟨u.full_name, u.summ, u.card_number, u.birthday⟩

/-- Replies of `sync_pg_command`: the "everything already synchronized"
information message, or the final aggregate report
(success count, error count, total processed, still pending). -/
inductive SyncReply where
  | nothingToDo
  | report (success errors total pending : ℕ)
deriving DecidableEq, Repr

/-- The per-record loop of `sync_pg_command` (src/main.py, lines 344-367):
attempt a mirror insert for every fetched record in order; a success
increments the success counter and appends the record's primary id to
`synced_ids`; a failure increments the error counter; no failure stops the
loop. Returns (successes, errors, synced ids in order, mirror state). -/
def mirrorPass : List UserRow → (UserRow → Bool) → PgDB → ℕ × ℕ × List ℤ × PgDB
  | [], _, pg => (0, 0, [], pg)
  | u :: us, ok, pg =>
    let step := pg_add_user pg (pgUserData u).full_name (pgUserData u).summ
      (pgUserData u).card_number (pgUserData u).birthday (ok u)
    let rest := mirrorPass us ok step.2
    match step.1 with
    | some _ => (rest.1 + 1, rest.2.1, u.id :: rest.2.2.1, rest.2.2.2)
    | none => (rest.1, rest.2.1 + 1, rest.2.2.1, rest.2.2.2)

/-- `sync_pg_command` (src/main.py, lines 317-393): fetch the unsynced
records; when there are none reply that everything is already synchronized;
otherwise run the mirror pass over every record, mark the collected ids as
synced (only when at least one insert succeeded — the source guards the
call with `if synced_ids`), and report success/error/total/pending
counts. -/
def sync_pg_command (db : SQLiteDB) (readErr : Bool) (insertOk : UserRow → Bool)
    (pg : PgDB) (markOk : Bool) (now : ℤ) : SyncReply × SQLiteDB × PgDB :=
  let unsynced := get_unsynced_users readErr db
  if unsynced = [] then (SyncReply.nothingToDo, db, pg)
  else
    let res := mirrorPass unsynced insertOk pg
    let db2 := if res.2.2.1 = [] then db else (mark_users_synced res.2.2.1 now markOk db).2
    (SyncReply.report res.1 res.2.1 (res.1 + res.2.1) (unsynced.length - res.1),
     db2, res.2.2.2)

/-- The id cell of a Backup Store row: empty, a value convertible to an
integer by Python's `int(...)`, or a value whose conversion raises. -/
inductive IdCell where
  | blank
  | intCell (n : ℤ)
  | badCell
deriving DecidableEq, Repr

/-- A data row of the Excel backup sheet (after the header row). -/
structure ExcelRow where
  idCell : IdCell
  full_name : String
  summ : ℚ
  card_number : ℤ
  birthday : String
deriving DecidableEq, Repr

/-- State of the Excel backup workbook: its data rows (the header row is
implicit). -/
structure ExcelFile where
  rows : List ExcelRow
deriving DecidableEq, Repr

/-- `int(cell_value)` guarded by the source's `if cell_value is not None`
and `except (ValueError, TypeError)`: only integer-convertible cells
produce a value. -/
def cellToInt : IdCell → Option ℤ
  | IdCell.blank => none
  | IdCell.intCell n => some n
  | IdCell.badCell => none

/-- `ExcelBackupManager.get_existing_ids` (src/excel_manager.py, lines
187-214): the set of integer-convertible id-column values of the data
rows, skipping empty and malformed cells; any read error yields the empty
set. -/
def get_existing_ids (err : Bool) (wb : ExcelFile) : Finset ℤ :=
  match err with
  | true => ∅
  | false => (wb.rows.filterMap (fun r => cellToInt r.idCell)).toFinset

/-- The Excel row written for a database record by
`ExcelBackupManager.add_user` (src/excel_manager.py, lines 113-158). -/
def excelRowOf (u : PgRow) : ExcelRow :=
  ⟨IdCell.intCell u.id, u.full_name, u.summ, u.card_number, u.birthday⟩

/-- `ExcelBackupManager.add_user`: appends one row after the current last
row and saves; returns `False` on failure, leaving the sheet unchanged. -/
def excel_add_user (wb : ExcelFile) (u : PgRow) (ok : Bool) : Bool × ExcelFile :=
  match ok with
  | true => (true, ⟨wb.rows ++ [excelRowOf u]⟩)
  | false => (false, wb)

/-- Replies of `sync_backup_command`: no users in the database, everything
already present, or the aggregate report (added, errors, skipped, total
processed). -/
inductive BackupReply where
  | noUsers
  | allExist (total inExcel skipped : ℕ)
  | report (added errors skipped total : ℕ)
deriving DecidableEq, Repr

/-- The append loop of `sync_backup_command` (src/main.py, lines 541-558):
attempt to append every new record in order, counting successes and
failures; no failure stops the loop. -/
def backupAppendAll : List PgRow → (PgRow → Bool) → ExcelFile → ℕ × ℕ × ExcelFile
  | [], _, wb => (0, 0, wb)
  | u :: us, ok, wb =>
    let step := excel_add_user wb u (ok u)
    let rest := backupAppendAll us ok step.2
    match step.1 with
    | true => (rest.1 + 1, rest.2.1, rest.2.2)
    | false => (rest.1, rest.2.1 + 1, rest.2.2)

/-- `sync_backup_command` (src/main.py, lines 496-579): fetch every
database record; report when there are none; otherwise read the ids
already present in the backup, keep exactly the records whose id is not
among them, report when nothing is new, and otherwise append the new
records and report the counts. -/
def sync_backup_command (pgRows : List PgRow) (exErr : Bool) (wb : ExcelFile)
    (ok : PgRow → Bool) : BackupReply × ExcelFile :=
  if pgRows = [] then (BackupReply.noUsers, wb)
  else
    let existing := get_existing_ids exErr wb
    let newUsers := pgRows.filter (fun u => decide (u.id ∉ existing))
    let skipped := pgRows.length - newUsers.length
    if newUsers = [] then (BackupReply.allExist pgRows.length existing.card skipped, wb)
    else
      let res := backupAppendAll newUsers ok wb
      (BackupReply.report res.1 res.2.1 skipped (res.1 + res.2.1), res.2.2)

section HelperLemmas

/-- Splitting a list by a boolean predicate preserves its length. -/
theorem length_filter_add_length_filter_not {α : Type} (l : List α) (p : α → Bool) :
    (l.filter p).length + (l.filter (fun a => !p a)).length = l.length := by
  induction l with
  | nil => rfl
  | cons a l ih =>
    simp only [List.filter_cons]
    cases h : p a <;> simp [h] <;> omega

/-- Removing zeros does not change a `max`-fold started at a nonnegative
accumulator when all elements are nonnegative. -/
theorem foldl_max_filter_nonneg :
    ∀ (l : List ℤ) (a : ℤ), 0 ≤ a → (∀ c ∈ l, 0 ≤ c) →
      (l.filter (fun c => decide (c ≠ 0))).foldl max a = l.foldl max a := by
  intro l
  induction l with
  | nil => intro a _ _; rfl
  | cons c l ih =>
    intro a ha hall
    by_cases hc : c = 0
    · subst hc
      have hdrop : List.filter (fun c => decide (c ≠ 0)) ((0 : ℤ) :: l) =
          List.filter (fun c => decide (c ≠ 0)) l := by simp
      rw [hdrop, List.foldl_cons, max_eq_left ha]
      exact ih a ha (fun x hx => hall x (List.mem_cons_of_mem _ hx))
    · have hkeep : List.filter (fun c => decide (c ≠ 0)) (c :: l) =
          c :: List.filter (fun c => decide (c ≠ 0)) l := by simp [hc]
      rw [hkeep, List.foldl_cons, List.foldl_cons]
      exact ih (max a c) (le_trans ha (le_max_left a c))
        (fun x hx => hall x (List.mem_cons_of_mem _ hx))

/-- Allocation agrees with the spec formula `(max existing or 0) + 1` on any
store whose card numbers are nonnegative. -/
theorem alloc_eq_fold_max (users : List UserRow)
    (h : ∀ u ∈ users, 0 ≤ u.card_number) :
    allocCardNumber users = (users.map (fun u => u.card_number)).foldl max 0 + 1 := by
  have hL : ∀ c ∈ users.map (fun u => u.card_number), (0 : ℤ) ≤ c := by
    intro c hc
    obtain ⟨u, hu, rfl⟩ := List.mem_map.1 hc
    exact h u hu
  have hfold := foldl_max_filter_nonneg (users.map (fun u => u.card_number)) 0 le_rfl hL
  unfold allocCardNumber
  cases hf : (users.map (fun u => u.card_number)).filter (fun c => decide (c ≠ 0)) with
  | nil =>
    rw [hf] at hfold
    simp only [List.foldl_nil] at hfold
    show (1 : ℤ) = (users.map (fun u => u.card_number)).foldl max 0 + 1
    omega
  | cons c cs =>
    rw [hf] at hfold
    have hcmem : c ∈ (users.map (fun u => u.card_number)).filter (fun c => decide (c ≠ 0)) := by
      rw [hf]; exact List.mem_cons_self c cs
    have hc0 : (0 : ℤ) ≤ c := hL c (List.mem_of_mem_filter hcmem)
    simp only [List.foldl_cons] at hfold
    rw [max_eq_right hc0] at hfold
    show cs.foldl max c + 1 = (users.map (fun u => u.card_number)).foldl max 0 + 1
    omega

/-- The `max`-fold of the integer casts of `1, 2, ..., k` is `k`. -/
theorem foldl_max_range_cast (k : ℕ) :
    ((List.range' 1 k).map (fun (n : ℕ) => (n : ℤ))).foldl max 0 = (k : ℤ) := by
  induction k with
  | zero => rfl
  | succ k ih =>
    rw [List.range'_concat]
    simp only [List.map_append, List.foldl_append, List.map_cons, List.map_nil,
      List.foldl_cons, List.foldl_nil, ih]
    push_cast
    omega

/-- Core invariant of repeated form creation: if the stored card numbers
read `1, ..., k`, after the remaining sessions they read
`1, ..., k + number of sessions`. -/
theorem runForms_cards (now : ℤ) :
    ∀ (inputs : List (String × String)) (db : SQLiteDB) (k : ℕ),
      db.rows.map (fun u => u.card_number) = (List.range' 1 k).map (fun (n : ℕ) => (n : ℤ)) →
      (runForms db inputs now).rows.map (fun u => u.card_number) =
        (List.range' 1 (k + inputs.length)).map (fun (n : ℕ) => (n : ℤ)) := by
  intro inputs
  induction inputs with
  | nil =>
    intro db k h
    simpa [runForms] using h
  | cons p rest ih =>
    intro db k h
    have hnn : ∀ u ∈ db.rows, (0 : ℤ) ≤ u.card_number := by
      intro u hu
      have hm : u.card_number ∈ db.rows.map (fun u => u.card_number) :=
        List.mem_map_of_mem _ hu
      rw [h] at hm
      obtain ⟨n, _, hn⟩ := List.mem_map.1 hm
      rw [← hn]
      exact Int.natCast_nonneg n
    have hcard : allocCardNumber db.rows = (k : ℤ) + 1 := by
      rw [alloc_eq_fold_max db.rows hnn, h, foldl_max_range_cast]
    have hrows : (formCreate db p.1 p.2 now).rows.map (fun u => u.card_number) =
        (List.range' 1 (k + 1)).map (fun (n : ℕ) => (n : ℤ)) := by
      simp only [formCreate, sqlite_add_user, get_all_users]
      rw [List.range'_concat]
      have hnew : 1 + 1 * k = k + 1 := by omega
      rw [hnew]
      simp only [List.map_append, List.map_cons, List.map_nil, h, hcard]
      push_cast
      rfl
    have hrest := ih (formCreate db p.1 p.2 now) (k + 1) hrows
    have hlen : k + 1 + rest.length = k + (rest.length + 1) := by omega
    rw [hlen] at hrest
    simpa [runForms, List.foldl_cons] using hrest

/-- Exact accounting of the mirror loop: the success counter counts the
records whose insert succeeds, the error counter counts the failures, and
the accumulated ids are exactly the ids of the successful records, in
fetch order. -/
theorem mirrorPass_spec (insertOk : UserRow → Bool) :
    ∀ (us : List UserRow) (pg : PgDB),
      (mirrorPass us insertOk pg).1 = (us.filter insertOk).length ∧
      (mirrorPass us insertOk pg).2.1 = (us.filter (fun u => !insertOk u)).length ∧
      (mirrorPass us insertOk pg).2.2.1 = (us.filter insertOk).map (fun u => u.id) := by
  intro us
  induction us with
  | nil => intro pg; exact ⟨rfl, rfl, rfl⟩
  | cons u us ih =>
    intro pg
    have h1 : ∀ pg2, (mirrorPass us insertOk pg2).1 = (us.filter insertOk).length :=
      fun pg2 => (ih pg2).1
    have h2 : ∀ pg2, (mirrorPass us insertOk pg2).2.1 =
        (us.filter (fun u => !insertOk u)).length :=
      fun pg2 => (ih pg2).2.1
    have h3 : ∀ pg2, (mirrorPass us insertOk pg2).2.2.1 =
        (us.filter insertOk).map (fun u => u.id) :=
      fun pg2 => (ih pg2).2.2
    cases hok : insertOk u <;>
      simp [mirrorPass, pg_add_user, hok, h1, h2, h3, List.filter_cons]

/-- Marking then re-reading the unsynced rows: a row survives the filter
exactly when it was unsynced before and its id is not among the marked
ids. -/
theorem filter_unsynced_map_markRow (rows : List UserRow) (ids : List ℤ) (now : ℤ) :
    (rows.map (markRow ids now)).filter (fun r => !r.synced_with_pg) =
      rows.filter (fun r => !r.synced_with_pg && !(decide (r.id ∈ ids))) := by
  induction rows with
  | nil => rfl
  | cons r rows ih =>
    simp only [List.map_cons, List.filter_cons]
    by_cases hid : r.id ∈ ids
    · have hm : markRow ids now r =
          { r with synced_with_pg := true, synced_at := some now } := by
        simp [markRow, hid]
      rw [hm]
      simp [hid, ih]
    · have hm : markRow ids now r = r := by simp [markRow, hid]
      rw [hm]
      cases hs : r.synced_with_pg <;> simp [hid, hs, ih]

/-- On a store with globally distinct ids, an unsynced row's id appears in
the collected synced ids exactly when its own insert succeeded. -/
theorem mem_synced_ids_iff (db : SQLiteDB) (insertOk : UserRow → Bool)
    (hnodup : (db.rows.map (fun r => r.id)).Nodup)
    (r : UserRow) (hr : r ∈ db.rows.filter (fun x => !x.synced_with_pg)) :
    (r.id ∈ ((db.rows.filter (fun x => !x.synced_with_pg)).filter insertOk).map
        (fun u => u.id)) ↔ insertOk r = true := by
  constructor
  · intro h
    obtain ⟨s, hs, hsid⟩ := List.mem_map.1 h
    have hsdb : s ∈ db.rows :=
      List.mem_of_mem_filter (List.mem_of_mem_filter hs)
    have hrdb : r ∈ db.rows := List.mem_of_mem_filter hr
    have heq : s = r := List.inj_on_of_nodup_map hnodup hsdb hrdb hsid
    rw [← heq]
    exact List.of_mem_filter hs
  · intro h
    exact List.mem_map.2 ⟨r, List.mem_filter.2 ⟨hr, h⟩, rfl⟩

/-- The rows after a successful non-empty batch flag update. -/
theorem mark_users_synced_rows (ids : List ℤ) (now : ℤ) (db : SQLiteDB)
    (h : ids ≠ []) :
    (mark_users_synced ids now true db).2.rows = db.rows.map (markRow ids now) := by
  obtain ⟨i, is, rfl⟩ := List.exists_cons_of_ne_nil h
  rfl

/-- No date is strictly after itself. -/
theorem dateAfter_refl (t : Date) : dateAfter t t = false := by
  simp [dateAfter]

/-- The next calendar day is strictly after the current one. -/
theorem dateAfter_nextDay (t : Date) : dateAfter (nextDay t) t = true := by
  unfold nextDay dateAfter
  split_ifs <;> simp

/-- Exact accounting of the backup append loop: successes and failures are
counted per record, and precisely the successfully appended rows are added
after the existing rows, in order. -/
theorem backupAppendAll_spec (ok : PgRow → Bool) :
    ∀ (us : List PgRow) (wb : ExcelFile),
      (backupAppendAll us ok wb).1 = (us.filter ok).length ∧
      (backupAppendAll us ok wb).2.1 = (us.filter (fun u => !ok u)).length ∧
      (backupAppendAll us ok wb).2.2.rows = wb.rows ++ (us.filter ok).map excelRowOf := by
  intro us
  induction us with
  | nil => intro wb; exact ⟨rfl, rfl, by simp [backupAppendAll]⟩
  | cons u us ih =>
    intro wb
    have h1 : ∀ w, (backupAppendAll us ok w).1 = (us.filter ok).length :=
      fun w => (ih w).1
    have h2 : ∀ w, (backupAppendAll us ok w).2.1 = (us.filter (fun u => !ok u)).length :=
      fun w => (ih w).2.1
    have h3 : ∀ w, (backupAppendAll us ok w).2.2.rows =
        w.rows ++ (us.filter ok).map excelRowOf :=
      fun w => (ih w).2.2
    cases hok : ok u <;>
      simp [backupAppendAll, excel_add_user, hok, h1, h2, h3, List.filter_cons]

/-- The rows after one `sync_backup_command` run, in every branch: the
original rows followed by exactly the successfully appended images of the
records whose id was not already present. -/
theorem sync_backup_command_rows (pgRows : List PgRow) (wb : ExcelFile)
    (ok : PgRow → Bool) :
    (sync_backup_command pgRows false wb ok).2.rows =
      wb.rows ++ ((pgRows.filter (fun u =>
        decide (u.id ∉ get_existing_ids false wb))).filter ok).map excelRowOf := by
  by_cases h0 : pgRows = []
  · subst h0
    simp [sync_backup_command]
  · simp only [sync_backup_command, if_neg h0]
    by_cases h1 : pgRows.filter (fun u => decide (u.id ∉ get_existing_ids false wb)) = []
    · rw [if_pos h1, h1]
      simp
    · rw [if_neg h1]
      exact (backupAppendAll_spec ok
        (pgRows.filter (fun u => decide (u.id ∉ get_existing_ids false wb))) wb).2.2

/-- After a run of `sync_backup_command` in which every append succeeds,
every database id is present in the backup, so the second run's to-insert
set is empty. -/
theorem backup_second_run_nothing_new (pgRows : List PgRow) (wb : ExcelFile) :
    pgRows.filter (fun u => decide (u.id ∉ get_existing_ids false
        (sync_backup_command pgRows false wb (fun _ => true)).2)) = [] := by
  rw [List.filter_eq_nil_iff]
  intro u hu
  simp only [decide_eq_true_eq, not_not]
  have hw1 : (sync_backup_command pgRows false wb (fun _ => true)).2.rows =
      wb.rows ++ (pgRows.filter (fun u =>
        decide (u.id ∉ get_existing_ids false wb))).map excelRowOf := by
    have h := sync_backup_command_rows pgRows wb (fun _ => true)
    simpa using h
  simp only [get_existing_ids, List.mem_toFinset, List.mem_filterMap]
  rw [hw1]
  by_cases hin : u.id ∈ get_existing_ids false wb
  · have hex : ∃ r, r ∈ wb.rows ∧ cellToInt r.idCell = some u.id := by
      simpa [get_existing_ids, List.mem_toFinset, List.mem_filterMap] using hin
    obtain ⟨r, hr, hc⟩ := hex
    exact ⟨r, List.mem_append_left _ hr, hc⟩
  · refine ⟨excelRowOf u, List.mem_append_right _ ?_, rfl⟩
    exact List.mem_map_of_mem _ (List.mem_filter.2 ⟨hu, by simpa using hin⟩)

end HelperLemmas

/-- C3: `mark_users_synced` with an empty id set is a successful no-op;
with a non-empty set and a successful write it reports success and rewrites
exactly the rows whose id belongs to the set, setting the synced flag and
stamping `synced_at` while leaving every other row untouched; with a failed
write it reports failure and leaves the store exactly as it was
(all-or-nothing). -/
theorem c3_mark_synced_atomic :
    (∀ (now : ℤ) (ok : Bool) (db : SQLiteDB),
       mark_users_synced [] now ok db = (true, db)) ∧
    (∀ (ids : List ℤ) (now : ℤ) (db : SQLiteDB), ids ≠ [] →
       (mark_users_synced ids now true db).1 = true ∧
       (mark_users_synced ids now true db).2.rows.length = db.rows.length ∧
       (∀ r ∈ db.rows, r.id ∈ ids →
          { r with synced_with_pg := true, synced_at := some now } ∈
            (mark_users_synced ids now true db).2.rows) ∧
       (∀ r ∈ db.rows, r.id ∉ ids → r ∈ (mark_users_synced ids now true db).2.rows) ∧
       (∀ s ∈ (mark_users_synced ids now true db).2.rows, s.synced_with_pg = true →
          s.id ∈ ids ∨ ∃ r ∈ db.rows, r.id = s.id ∧ r.synced_with_pg = true)) ∧
    (∀ (ids : List ℤ) (now : ℤ) (db : SQLiteDB), ids ≠ [] →
       mark_users_synced ids now false db = (false, db)) := by
  refine ⟨fun now ok db => by simp [mark_users_synced], fun ids now db hne => ?_,
    fun ids now db hne => ?_⟩
  · obtain ⟨i, is, rfl⟩ := List.exists_cons_of_ne_nil hne
    simp only [mark_users_synced]
    refine ⟨by trivial, by simp, fun r hr hid => ?_, fun r hr hid => ?_, fun s hs hsync => ?_⟩
    · exact List.mem_map.2 ⟨r, hr, by simp [markRow, hid]⟩
    · exact List.mem_map.2 ⟨r, hr, by simp [markRow, hid]⟩
    · obtain ⟨r, hr, hrs⟩ := List.mem_map.1 hs
      by_cases hid : r.id ∈ i :: is
      · left
        simp only [markRow, if_pos hid] at hrs
        rw [← hrs]
        exact hid
      · right
        simp only [markRow, if_neg hid] at hrs
        subst hrs
        exact ⟨r, hr, rfl, hsync⟩
  · obtain ⟨i, is, rfl⟩ := List.exists_cons_of_ne_nil hne
    rfl

/-- C3 witness: a concrete run — empty set is a no-op, a failed write on a
non-empty set leaves the single unsynced row untouched. -/
theorem c3_mark_synced_atomic_check :
    mark_users_synced [] 5 true ⟨[⟨1, "Ivan Petrov", 0, 1, "1990-05-15", false, 0, none⟩], 1⟩ =
      (true, ⟨[⟨1, "Ivan Petrov", 0, 1, "1990-05-15", false, 0, none⟩], 1⟩) ∧
    mark_users_synced [1] 5 false ⟨[⟨1, "Ivan Petrov", 0, 1, "1990-05-15", false, 0, none⟩], 1⟩ =
      (false, ⟨[⟨1, "Ivan Petrov", 0, 1, "1990-05-15", false, 0, none⟩], 1⟩) ∧
    (⟨1, "Ivan Petrov", 0, 1, "1990-05-15", true, 0, some 5⟩ : UserRow) ∈
      (mark_users_synced [1] 5 true ⟨[⟨1, "Ivan Petrov", 0, 1, "1990-05-15", false, 0, none⟩], 1⟩).2.rows := by
  refine ⟨c3_mark_synced_atomic.1 5 true _, c3_mark_synced_atomic.2.2 [1] 5 _ (by decide), ?_⟩
  have h := (c3_mark_synced_atomic.2.1 [1] 5
    ⟨[⟨1, "Ivan Petrov", 0, 1, "1990-05-15", false, 0, none⟩], 1⟩ (by decide)).2.2.1
    ⟨1, "Ivan Petrov", 0, 1, "1990-05-15", false, 0, none⟩ (by decide) (by decide)
  exact h

/-- C8: `get_sync_stats` on a readable store reports the exact row count,
counts that satisfy `synced + unsynced = total`, a percentage equal to
`round(synced / total * 100, 2)` whenever the store is non-empty, and the
constant `0` (no division) when the store is empty. -/
theorem c8_sync_stats (db : SQLiteDB) :
    (get_sync_stats false db).total_users = db.rows.length ∧
    (get_sync_stats false db).synced_users + (get_sync_stats false db).unsynced_users =
      (get_sync_stats false db).total_users ∧
    (0 < (get_sync_stats false db).total_users →
       (get_sync_stats false db).sync_percentage =
         round2 (((get_sync_stats false db).synced_users : ℚ) /
           ((get_sync_stats false db).total_users : ℚ) * 100)) ∧
    ((get_sync_stats false db).total_users = 0 →
       (get_sync_stats false db).sync_percentage = 0) := by
  refine ⟨rfl, ?_, fun hpos => ?_, fun hzero => ?_⟩
  · simpa [get_sync_stats] using
      length_filter_add_length_filter_not db.rows (fun r => r.synced_with_pg)
  · simp only [get_sync_stats] at hpos ⊢
    simp [hpos]
  · simp only [get_sync_stats] at hzero ⊢
    simp [hzero]

/-- C8 witness: a store with three rows of which one is synced reports
`total = 3`, `synced + unsynced = 3` and percentage `33.33`. -/
theorem c8_sync_stats_check :
    0 < (get_sync_stats false ⟨[⟨1, "A B", 0, 1, "1990-01-01", true, 0, some 1⟩,
        ⟨2, "C D", 0, 2, "1991-01-01", false, 0, none⟩,
        ⟨3, "E F", 0, 3, "1992-01-01", false, 0, none⟩], 3⟩).total_users ∧
    (get_sync_stats false ⟨[⟨1, "A B", 0, 1, "1990-01-01", true, 0, some 1⟩,
        ⟨2, "C D", 0, 2, "1991-01-01", false, 0, none⟩,
        ⟨3, "E F", 0, 3, "1992-01-01", false, 0, none⟩], 3⟩).sync_percentage = 3333 / 100 := by
  constructor
  · decide
  · have h := (c8_sync_stats ⟨[⟨1, "A B", 0, 1, "1990-01-01", true, 0, some 1⟩,
        ⟨2, "C D", 0, 2, "1991-01-01", false, 0, none⟩,
        ⟨3, "E F", 0, 3, "1992-01-01", false, 0, none⟩], 3⟩).2.2.1 (by decide)
    rw [h]
    have hs : (get_sync_stats false ⟨[⟨1, "A B", 0, 1, "1990-01-01", true, 0, some 1⟩,
        ⟨2, "C D", 0, 2, "1991-01-01", false, 0, none⟩,
        ⟨3, "E F", 0, 3, "1992-01-01", false, 0, none⟩], 3⟩).synced_users = 1 := by decide
    have ht : (get_sync_stats false ⟨[⟨1, "A B", 0, 1, "1990-01-01", true, 0, some 1⟩,
        ⟨2, "C D", 0, 2, "1991-01-01", false, 0, none⟩,
        ⟨3, "E F", 0, 3, "1992-01-01", false, 0, none⟩], 3⟩).total_users = 3 := by decide
    rw [hs, ht]
    norm_num [round2, roundHalfEven]

/-- C2: the card number allocated by the form flow equals
`(max existing card_number or 0) + 1` — in particular `1` on an empty store
— for every store whose card numbers are nonnegative; and a sequence of N
form creations starting from the empty store allocates exactly the card
numbers `1, 2, ..., N`, in order, with no duplicates and no gaps. -/
theorem c2_card_number_allocation :
    (∀ users : List UserRow, (∀ u ∈ users, 0 ≤ u.card_number) →
       allocCardNumber users = (users.map (fun u => u.card_number)).foldl max 0 + 1) ∧
    (∀ (inputs : List (String × String)) (now : ℤ),
       (runForms emptySQLite inputs now).rows.map (fun u => u.card_number) =
         (List.range' 1 inputs.length).map (fun (n : ℕ) => (n : ℤ))) := by
  refine ⟨alloc_eq_fold_max, fun inputs now => ?_⟩
  have h := runForms_cards now inputs emptySQLite 0 (by rfl)
  simpa using h

/-- C2 witness: a store holding card number 5 allocates 6, the empty store
allocates 1, and two sessions from the empty store get cards `[1, 2]`. -/
theorem c2_card_number_allocation_check :
    allocCardNumber [⟨1, "Ivan Petrov", 0, 5, "1990-05-15", false, 0, none⟩] = 6 ∧
    allocCardNumber ([] : List UserRow) = 1 ∧
    (runForms emptySQLite [("Ivan Petrov", "1990-05-15"), ("Anna Smith", "1980-01-01")]
      0).rows.map (fun u => u.card_number) = [1, 2] := by
  refine ⟨?_, ?_, ?_⟩
  · have h := c2_card_number_allocation.1
      [⟨1, "Ivan Petrov", 0, 5, "1990-05-15", false, 0, none⟩] (by decide)
    rw [h]; decide
  · have h := c2_card_number_allocation.1 ([] : List UserRow) (by simp)
    rw [h]; rfl
  · have h := c2_card_number_allocation.2
      [("Ivan Petrov", "1990-05-15"), ("Anna Smith", "1980-01-01")] 0
    rw [h]; rfl

/-- C5: every record is created with `synced_with_pg = false` (and no
`synced_at` stamp); under every store operation a record whose flag is true
keeps its id present with the flag still true (the flag never goes back to
false); and an insertion touches no existing row — the only flag change in
the system is `mark_users_synced` setting it to true. -/
theorem c5_synced_flag_monotone :
    (∀ (db : SQLiteDB) (d : AddData) (now : ℤ),
       (sqlite_add_user db d now true).2.rows =
         db.rows ++
           [⟨db.seq + 1, d.full_name, d.summ, d.card_number, d.birthday, false, now, none⟩]) ∧
    (∀ (op : StoreOp) (db : SQLiteDB), ∀ r ∈ db.rows, r.synced_with_pg = true →
       ∃ s ∈ (applyOp op db).rows, s.id = r.id ∧ s.synced_with_pg = true) ∧
    (∀ (d : AddData) (now : ℤ) (ok : Bool) (db : SQLiteDB),
       ∀ s ∈ (applyOp (StoreOp.addUser d now ok) db).rows,
         s ∈ db.rows ∨ s.synced_with_pg = false) := by
  refine ⟨fun db d now => rfl, fun op db r hr hsync => ?_, fun d now ok db s hs => ?_⟩
  · cases op with
    | addUser d now ok =>
      cases ok with
      | true =>
        exact ⟨r, List.mem_append_left _ hr, rfl, hsync⟩
      | false =>
        exact ⟨r, hr, rfl, hsync⟩
    | markSynced ids now ok =>
      cases ids with
      | nil => exact ⟨r, hr, rfl, hsync⟩
      | cons i is =>
        cases ok with
        | true =>
          refine ⟨markRow (i :: is) now r, List.mem_map_of_mem _ hr, ?_, ?_⟩
          · simp only [markRow]
            split <;> rfl
          · simp only [markRow]
            split
            · rfl
            · exact hsync
        | false => exact ⟨r, hr, rfl, hsync⟩
  · cases ok with
    | true =>
      rcases List.mem_append.1 hs with h | h
      · exact Or.inl h
      · right
        simp only [List.mem_singleton] at h
        rw [h]
    | false => exact Or.inl hs

/-- C5 witness: marking id 2 in a store whose only row (id 1) is already
synced keeps that row present and synced. -/
theorem c5_synced_flag_monotone_check :
    ∃ s ∈ (applyOp (StoreOp.markSynced [2] 9 true)
        ⟨[⟨1, "A B", 0, 1, "1990-01-01", true, 5, some 5⟩], 1⟩).rows,
      s.id = 1 ∧ s.synced_with_pg = true :=
  c5_synced_flag_monotone.2.1 (StoreOp.markSynced [2] 9 true)
    ⟨[⟨1, "A B", 0, 1, "1990-01-01", true, 5, some 5⟩], 1⟩
    ⟨1, "A B", 0, 1, "1990-01-01", true, 5, some 5⟩ (by decide) (by decide)

/-- C6: birth-date validation accepts exactly the strings that match the
strict DD.MM.YYYY pattern, denote a real calendar date and are not strictly
after the current date; on this boundary `31.12.2000` is accepted,
`29.02.2001` is rejected as an impossible date (2001 is not a leap year),
`2000.12.31` is rejected as wrong format, the current day is accepted, the
next day is rejected as a future date; and every rejection replies while
keeping the session in the birthday-entry state with the store untouched. -/
theorem c6_birthdate_validation (today : Date)
    (hpast : dateAfter (2000, 12, 31) today = false) :
    checkBirthday "31.12.2000" today = DateCheck.valid 2000 12 31 ∧
    checkBirthday "29.02.2001" today = DateCheck.impossibleDate ∧
    checkBirthday "2000.12.31" today = DateCheck.wrongFormat ∧
    (∀ (s : String) (y m d : ℕ), parseDDMMYYYY s = some (d, m, y) →
       validYMD y m d = true → (y, m, d) = today →
       checkBirthday s today = DateCheck.valid y m d) ∧
    (∀ (s : String) (y m d : ℕ), parseDDMMYYYY s = some (d, m, y) →
       validYMD y m d = true → (y, m, d) = nextDay today →
       checkBirthday s today = DateCheck.futureDate) ∧
    (∀ (s : String) (y m d : ℕ), checkBirthday s today = DateCheck.valid y m d ↔
       (parseDDMMYYYY s = some (d, m, y) ∧ validYMD y m d = true ∧
        dateAfter (y, m, d) today = false)) ∧
    (∀ (input : String) (fullname : Option String) (db : SQLiteDB) (now : ℤ)
        (readErr insertOk : Bool),
       (checkBirthday input today = DateCheck.wrongFormat ∨
        checkBirthday input today = DateCheck.impossibleDate ∨
        checkBirthday input today = DateCheck.futureDate) →
       (handle_birthday input today fullname db now readErr insertOk).stateAfter =
           some SessionState.enterBirthday ∧
         (handle_birthday input today fullname db now readErr insertOk).db = db) := by
  refine ⟨?_, ?_, ?_, ?_, ?_, ?_, ?_⟩
  · have hp : parseDDMMYYYY "31.12.2000" = some (31, 12, 2000) := by decide
    have hv : validYMD 2000 12 31 = true := by decide
    simp [checkBirthday, hp, hv, hpast]
  · have hp : parseDDMMYYYY "29.02.2001" = some (29, 2, 2001) := by decide
    have hv : validYMD 2001 2 29 = false := by decide
    simp [checkBirthday, hp, hv]
  · have hp : parseDDMMYYYY "2000.12.31" = none := by decide
    simp [checkBirthday, hp]
  · intro s y m d hp hv ht
    simp [checkBirthday, hp, hv, ht, dateAfter_refl]
  · intro s y m d hp hv ht
    simp [checkBirthday, hp, hv, ht, dateAfter_nextDay]
  · intro s y m d
    constructor
    · intro h
      cases hp : parseDDMMYYYY s with
      | none => simp [checkBirthday, hp] at h
      | some t =>
        obtain ⟨d0, m0, y0⟩ := t
        simp only [checkBirthday, hp] at h
        by_cases hv : validYMD y0 m0 d0 = true
        · rw [if_pos hv] at h
          by_cases hf : dateAfter (y0, m0, d0) today = true
          · rw [if_pos hf] at h
            exact absurd h (by simp)
          · rw [if_neg hf] at h
            have hinj := DateCheck.valid.inj h
            obtain ⟨hy, hm, hd⟩ := hinj
            subst hy; subst hm; subst hd
            exact ⟨rfl, hv, by simpa using hf⟩
        · rw [if_neg hv] at h
          exact absurd h (by simp)
    · rintro ⟨hp, hv, hf⟩
      simp [checkBirthday, hp, hv, hf]
  · intro input fullname db now readErr insertOk h
    rcases h with h | h | h <;> simp [handle_birthday, h]

/-- C6 witness: the boundary cases evaluated at the concrete current date
2026-10-12. -/
theorem c6_birthdate_validation_check :
    checkBirthday "31.12.2000" (2026, 10, 12) = DateCheck.valid 2000 12 31 ∧
    checkBirthday "12.10.2026" (2026, 10, 12) = DateCheck.valid 2026 10 12 ∧
    checkBirthday "13.10.2026" (2026, 10, 12) = DateCheck.futureDate ∧
    checkBirthday "29.02.2001" (2026, 10, 12) = DateCheck.impossibleDate ∧
    checkBirthday "2000.12.31" (2026, 10, 12) = DateCheck.wrongFormat := by
  have h := c6_birthdate_validation (2026, 10, 12) (by decide)
  exact ⟨h.1,
    h.2.2.2.1 "12.10.2026" 2026 10 12 (by decide) (by decide) (by decide),
    h.2.2.2.2.1 "13.10.2026" 2026 10 13 (by decide) (by decide) (by decide),
    h.2.1, h.2.2.1⟩

/-- C1: a mirror-sync pass over a store with distinct ids and M fetched
unsynced records, of which K per-record inserts fail, attempts every record
(the report's total equals M and no failure aborts the loop), accumulates
exactly the ids of the M-K successful inserts, marks exactly those as
synced so that exactly the K failed records remain unsynced afterwards;
and when M = 0 the pass replies "nothing to do" and changes nothing. -/
theorem c1_mirror_sync_pass (db : SQLiteDB) (insertOk : UserRow → Bool)
    (pg : PgDB) (now : ℤ)
    (hnodup : (db.rows.map (fun r => r.id)).Nodup) :
    (get_unsynced_users false db = [] →
       sync_pg_command db false insertOk pg true now = (SyncReply.nothingToDo, db, pg)) ∧
    (get_unsynced_users false db ≠ [] →
       (sync_pg_command db false insertOk pg true now).1 =
         SyncReply.report ((get_unsynced_users false db).filter insertOk).length
           ((get_unsynced_users false db).filter (fun u => !insertOk u)).length
           (((get_unsynced_users false db).filter insertOk).length +
             ((get_unsynced_users false db).filter (fun u => !insertOk u)).length)
           ((get_unsynced_users false db).filter (fun u => !insertOk u)).length ∧
       ((get_unsynced_users false db).filter insertOk).length +
           ((get_unsynced_users false db).filter (fun u => !insertOk u)).length =
         (get_unsynced_users false db).length ∧
       (mirrorPass (get_unsynced_users false db) insertOk pg).2.2.1 =
         ((get_unsynced_users false db).filter insertOk).map (fun u => u.id) ∧
       get_unsynced_users false (sync_pg_command db false insertOk pg true now).2.1 =
         (get_unsynced_users false db).filter (fun u => !insertOk u)) := by
  constructor
  · intro h
    simp [sync_pg_command, h]
  · intro h
    obtain ⟨hs, he, hids⟩ := mirrorPass_spec insertOk (get_unsynced_users false db) pg
    have hMK := length_filter_add_length_filter_not (get_unsynced_users false db) insertOk
    simp only [sync_pg_command, h, if_false, ite_false]
    refine ⟨?_, hMK, hids, ?_⟩
    · rw [hs, he]
      congr 1
      omega
    · by_cases hid0 : (mirrorPass (get_unsynced_users false db) insertOk pg).2.2.1 = []
      · have hfilnil : (get_unsynced_users false db).filter insertOk = [] := by
          rw [hid0] at hids
          exact List.map_eq_nil_iff.1 hids.symm
        have hall : ∀ u ∈ get_unsynced_users false db, insertOk u = false := by
          intro u hu
          have := List.filter_eq_nil_iff.1 hfilnil u hu
          simpa using this
        rw [if_pos hid0]
        exact (List.filter_eq_self.2 (fun a ha => by simp [hall a ha])).symm
      · rw [if_neg hid0]
        have hrows := mark_users_synced_rows _ now db hid0
        have hgu : ∀ db2 : SQLiteDB,
            get_unsynced_users false db2 = db2.rows.filter (fun r => !r.synced_with_pg) :=
          fun _ => rfl
        rw [hgu, hrows, filter_unsynced_map_markRow]
        have hsplit : db.rows.filter (fun r => !r.synced_with_pg &&
            !(decide (r.id ∈ (mirrorPass (get_unsynced_users false db) insertOk pg).2.2.1))) =
            (db.rows.filter (fun r => !r.synced_with_pg)).filter (fun r =>
              !(decide (r.id ∈ (mirrorPass (get_unsynced_users false db) insertOk pg).2.2.1))) := by
          rw [List.filter_filter]
          exact List.filter_congr (fun x _ => Bool.and_comm _ _)
        rw [hsplit]
        apply List.filter_congr
        intro r hr
        have hiff := mem_synced_ids_iff db insertOk hnodup r hr
        rw [← show (get_unsynced_users false db) = db.rows.filter (fun x => !x.synced_with_pg)
          from rfl] at hiff
        rw [← hids] at hiff
        by_cases hmem : r.id ∈ (mirrorPass (get_unsynced_users false db) insertOk pg).2.2.1
        · simp [hmem, hiff.1 hmem]
        · have : ¬ insertOk r = true := fun hok => hmem (hiff.2 hok)
          simp only [Bool.not_eq_true] at this
          simp [hmem, this]

/-- C1 witness: a pass over a store with two unsynced records in which the
insert of id 1 succeeds and the insert of id 2 fails leaves exactly the
record with id 2 unsynced. -/
theorem c1_mirror_sync_pass_check :
    get_unsynced_users false ⟨[⟨1, "A B", 0, 1, "1990-01-01", false, 0, none⟩,
        ⟨2, "C D", 0, 2, "1991-01-01", false, 0, none⟩], 2⟩ ≠ [] ∧
    get_unsynced_users false
        (sync_pg_command ⟨[⟨1, "A B", 0, 1, "1990-01-01", false, 0, none⟩,
            ⟨2, "C D", 0, 2, "1991-01-01", false, 0, none⟩], 2⟩ false
          (fun u => decide (u.id = 1)) ⟨[], 0⟩ true 7).2.1 =
      (get_unsynced_users false ⟨[⟨1, "A B", 0, 1, "1990-01-01", false, 0, none⟩,
          ⟨2, "C D", 0, 2, "1991-01-01", false, 0, none⟩], 2⟩).filter
        (fun u => !(decide (u.id = 1))) := by
  constructor
  · decide
  · exact ((c1_mirror_sync_pass ⟨[⟨1, "A B", 0, 1, "1990-01-01", false, 0, none⟩,
        ⟨2, "C D", 0, 2, "1991-01-01", false, 0, none⟩], 2⟩
      (fun u => decide (u.id = 1)) ⟨[], 0⟩ 7 (by decide)).2 (by decide)).2.2.2

/-- C9: on an underlying storage error the primary-store read operations
return the empty list instead of signalling failure — a caller cannot tell
"no records" from "store unreadable" — and a mirror-sync pass over an
unreadable store replies that everything is already synchronized, changing
neither store. -/
theorem c9_unreadable_store_reads_empty (db : SQLiteDB) (insertOk : UserRow → Bool)
    (pg : PgDB) (markOk : Bool) (now : ℤ) :
    get_all_users true db = [] ∧
    get_unsynced_users true db = [] ∧
    sync_pg_command db true insertOk pg markOk now = (SyncReply.nothingToDo, db, pg) := by
  exact ⟨rfl, rfl, rfl⟩

/-- C4: one incremental backup run appends exactly the (successfully
written) records whose id is not already present, leaving the existing rows
untouched as a prefix; and with all appends succeeding, a second run with
no intervening writes has an empty to-insert set and returns the workbook
unchanged — zero new rows. -/
theorem c4_incremental_backup_idempotent (pgRows : List PgRow) (wb : ExcelFile)
    (ok : PgRow → Bool) :
    (sync_backup_command pgRows false wb ok).2.rows =
      wb.rows ++ ((pgRows.filter (fun u =>
        decide (u.id ∉ get_existing_ids false wb))).filter ok).map excelRowOf ∧
    pgRows.filter (fun u => decide (u.id ∉ get_existing_ids false
        (sync_backup_command pgRows false wb (fun _ => true)).2)) = [] ∧
    (sync_backup_command pgRows false
        (sync_backup_command pgRows false wb (fun _ => true)).2 (fun _ => true)).2 =
      (sync_backup_command pgRows false wb (fun _ => true)).2 := by
  refine ⟨sync_backup_command_rows pgRows wb ok, backup_second_run_nothing_new pgRows wb, ?_⟩
  by_cases h0 : pgRows = []
  · subst h0
    simp [sync_backup_command]
  · have h2 := backup_second_run_nothing_new pgRows wb
    set wb1 := (sync_backup_command pgRows false wb (fun _ => true)).2 with hwb1
    simp only [sync_backup_command, if_neg h0]
    rw [if_pos h2]

/-- C7 counterexample: two primary-store records that differ only in
`created_at` — which is not a mirror-sync bookkeeping field — produce
identical mirror-insert payloads, so the insert does not carry every field
except the bookkeeping fields. -/
theorem c7_payload_drops_created_at :
    pgUserData ⟨1, "Ivan Petrov", 0, 1, "1990-05-15", false, 100, none⟩ =
      pgUserData ⟨1, "Ivan Petrov", 0, 1, "1990-05-15", false, 200, none⟩ ∧
    (⟨1, "Ivan Petrov", 0, 1, "1990-05-15", false, 100, none⟩ : UserRow).created_at ≠
      (⟨1, "Ivan Petrov", 0, 1, "1990-05-15", false, 200, none⟩ : UserRow).created_at ∧
    (⟨1, "Ivan Petrov", 0, 1, "1990-05-15", false, 100, none⟩ : UserRow).synced_with_pg =
      (⟨1, "Ivan Petrov", 0, 1, "1990-05-15", false, 200, none⟩ : UserRow).synced_with_pg ∧
    (⟨1, "Ivan Petrov", 0, 1, "1990-05-15", false, 100, none⟩ : UserRow).synced_at =
      (⟨1, "Ivan Petrov", 0, 1, "1990-05-15", false, 200, none⟩ : UserRow).synced_at := by
  exact ⟨rfl, by decide, rfl, rfl⟩

/-- C7 amended: the per-record mirror insert carries exactly the record's
full_name, summ, card_number and birthday — every field except the
mirror-sync bookkeeping fields, `created_at` and the primary id — and the
Mirror Store generates its own identity: the inserted mirror row receives
the mirror's next serial id together with precisely those four fields. -/
theorem c7_mirror_payload_amended :
    (∀ u1 u2 : UserRow, pgUserData u1 = pgUserData u2 ↔
       (u1.full_name = u2.full_name ∧ u1.summ = u2.summ ∧
        u1.card_number = u2.card_number ∧ u1.birthday = u2.birthday)) ∧
    (∀ (pg : PgDB) (u : UserRow),
       (pg_add_user pg (pgUserData u).full_name (pgUserData u).summ
           (pgUserData u).card_number (pgUserData u).birthday true).1 =
         some (pg.seq + 1) ∧
       (pg_add_user pg (pgUserData u).full_name (pgUserData u).summ
           (pgUserData u).card_number (pgUserData u).birthday true).2.rows =
         pg.rows ++ [⟨pg.seq + 1, u.full_name, u.summ, u.card_number, u.birthday⟩]) := by
  constructor
  · intro u1 u2
    simp [pgUserData, PgPayload.mk.injEq]
  · intro pg u
    exact ⟨rfl, rfl⟩

/-- C7 witness: two records agreeing on the four data fields but nothing
else produce the same payload. -/
theorem c7_mirror_payload_amended_check :
    pgUserData ⟨1, "A B", 0, 1, "1990-01-01", false, 0, none⟩ =
      pgUserData ⟨2, "A B", 0, 1, "1990-01-01", true, 9, some 3⟩ :=
  (c7_mirror_payload_amended.1 _ _).mpr ⟨rfl, rfl, rfl, rfl⟩

/-- C10: `get_existing_ids` returns exactly the integer-convertible values
of the id column — empty and malformed cells contribute nothing — any read
error yields the empty set, and a database record none of whose backup rows
carry its id as an integer cell lands in the incremental merge's to-insert
set (it will be appended again). -/
theorem c10_existing_ids (wb : ExcelFile) :
    (∀ n : ℤ, n ∈ get_existing_ids false wb ↔
       ∃ r, r ∈ wb.rows ∧ cellToInt r.idCell = some n) ∧
    cellToInt IdCell.blank = none ∧
    cellToInt IdCell.badCell = none ∧
    get_existing_ids true wb = ∅ ∧
    (∀ (pgRows : List PgRow) (u : PgRow), u ∈ pgRows →
       (∀ r ∈ wb.rows, r.idCell ≠ IdCell.intCell u.id) →
       u ∈ pgRows.filter (fun v => decide (v.id ∉ get_existing_ids false wb))) := by
  refine ⟨fun n => ?_, rfl, rfl, rfl, fun pgRows u hu hnone => ?_⟩
  · simp [get_existing_ids, List.mem_toFinset, List.mem_filterMap]
  · have hnotin : u.id ∉ get_existing_ids false wb := by
      simp only [get_existing_ids, List.mem_toFinset, List.mem_filterMap]
      rintro ⟨r, hr, hc⟩
      have hcell : r.idCell = IdCell.intCell u.id := by
        cases hcase : r.idCell
        · rw [hcase] at hc
          exact absurd hc (by simp [cellToInt])
        · rw [hcase] at hc
          simp only [cellToInt, Option.some.injEq] at hc
          rw [hc]
        · rw [hcase] at hc
          exact absurd hc (by simp [cellToInt])
      exact hnone r hr hcell
    exact List.mem_filter.2 ⟨hu, by simpa using hnotin⟩

/-- C10 witness: in a workbook whose rows carry an integer id cell 3 and a
malformed id cell, the id 3 is reported present, and a record with id 7
(only matched by the malformed row) is selected for re-insertion. -/
theorem c10_existing_ids_check :
    ((3 : ℤ) ∈ get_existing_ids false ⟨[⟨IdCell.intCell 3, "A B", 0, 1, "1990-01-01"⟩,
        ⟨IdCell.badCell, "C D", 0, 2, "1991-01-01"⟩]⟩ ↔
      ∃ r, r ∈ [⟨IdCell.intCell 3, "A B", 0, 1, "1990-01-01"⟩,
        (⟨IdCell.badCell, "C D", 0, 2, "1991-01-01"⟩ : ExcelRow)] ∧
        cellToInt r.idCell = some 3) ∧
    (⟨7, "C D", 0, 2, "1991-01-01"⟩ : PgRow) ∈
      [(⟨7, "C D", 0, 2, "1991-01-01"⟩ : PgRow)].filter
        (fun v => decide (v.id ∉ get_existing_ids false
          ⟨[⟨IdCell.intCell 3, "A B", 0, 1, "1990-01-01"⟩,
            ⟨IdCell.badCell, "C D", 0, 2, "1991-01-01"⟩]⟩)) := by
  constructor
  · exact (c10_existing_ids _).1 3
  · exact (c10_existing_ids _).2.2.2.2 _ _ (by decide) (by decide)

end BotModel
